import Mathlib

/-
Verification of the adx-mcp-server repository (three TypeScript variants of
one MCP server class, AdxMcpServer).

Variant A (adxMcpServer.ts, first file): high-level McpServer backed by a
local sqlite store; config resource interpolates the raw environment values;
query tool takes a sql string and catches errors.

Variant B (adxMcpServer.ts, second file / adxMcpServer2): high-level McpServer
with ResourceTemplates against the remote Kusto client; config resource
redacts the secret; query tool takes a db and a query and has no catch.

Low-level variant (the unnamed source file): raw Server with setRequestHandler
calls; regex-based URI dispatch for the schema family; redacting config
handler.

JavaScript values are modelled as follows: a possibly-undefined string is an
Option String; template interpolation of undefined yields the string
"undefined"; string falsiness is emptiness; a thrown Error and a rejected
promise are the error side of an Except; a handler that falls through all
branches (returning undefined) yields Option.none for its contents.
-/

/-- The character class of the JavaScript regex token backslash-w
(no unicode flag): ASCII letters, digits and underscore. -/
def isWordChar (c : Char) : Bool :=
  c.isAlphanum || c == '_'

/-- The literal characters of the fixed part of the schema URI family,
as they appear in the three regexes of the low-level read handler. -/
def schemaHead : List Char :=
  ['s', 'c', 'h', 'e', 'm', 'a', ':', '/', '/', 'a', 'd', 'x', '/']

/-- Match a literal prefix of characters, returning the remainder on success. -/
def startsWithList : List Char → List Char → Option (List Char)
  | [], cs => some cs
  | _ :: _, [] => none
  | p :: ps, c :: cs => if p = c then startsWithList ps cs else none

/-- True when some suffix of the list satisfies the predicate.  A JavaScript
regex test anchored only at the end succeeds exactly when the pattern matches
at some start position, i.e. on some suffix of the subject string. -/
def anySuffix (p : List Char → Bool) : List Char → Bool
  | [] => p []
  | c :: cs => p (c :: cs) || anySuffix p cs

/-- Longest leading run of word characters, with the remainder.  A greedy
backslash-w-plus followed by a character outside the class consumes exactly
this run. -/
def takeWordChars : List Char → List Char × List Char
  | [] => ([], [])
  | c :: cs =>
    if isWordChar c then
      ((takeWordChars cs).1.cons c, (takeWordChars cs).2)
    else ([], c :: cs)

/-- One end-anchored match attempt of the tables regex
(schema colon slash slash adx slash, then word chars to the end). -/
def tablesAt (cs : List Char) : Bool :=
  match startsWithList schemaHead cs with
  | some rest => !rest.isEmpty && rest.all isWordChar
  | none => false

/-- One end-anchored match attempt of the table-schema regex
(the fixed head, a word-char segment, a slash, a word-char segment, end). -/
def tableSchemaAt (cs : List Char) : Bool :=
  match startsWithList schemaHead cs with
  | none => false
  | some rest =>
    match (takeWordChars rest).2 with
    | '/' :: r2 =>
      !(takeWordChars rest).1.isEmpty &&
        (!(takeWordChars r2).1.isEmpty && (takeWordChars r2).2.isEmpty)
    | _ => false

/-- One end-anchored match attempt of the functions regex
(the fixed head, a word-char segment, then the literal slash-functions, end). -/
def functionsAt (cs : List Char) : Bool :=
  match startsWithList schemaHead cs with
  | none => false
  | some rest =>
    !(takeWordChars rest).1.isEmpty &&
      (takeWordChars rest).2 == ['/', 'f', 'u', 'n', 'c', 't', 'i', 'o', 'n', 's']

/-- Test of the showTablesRegex of the low-level read handler. -/
def testShowTables (uri : String) : Bool :=
  anySuffix tablesAt uri.toList

/-- Test of the showTableSchemaRegex of the low-level read handler. -/
def testTableSchema (uri : String) : Bool :=
  anySuffix tableSchemaAt uri.toList

/-- Test of the showFunctionsRegex of the low-level read handler. -/
def testFunctions (uri : String) : Bool :=
  anySuffix functionsAt uri.toList

/-- Accumulator pass of the split on the slash character. -/
def splitOnSlashAux (acc : List Char) : List Char → List (List Char)
  | [] => [acc.reverse]
  | c :: cs =>
    if c = '/' then acc.reverse :: splitOnSlashAux [] cs
    else splitOnSlashAux (c :: acc) cs

/-- JavaScript uri.split on the slash separator: every occurrence splits,
empty pieces are kept. -/
def jsSplit (s : String) : List String :=
  (splitOnSlashAux [] s.toList).map (fun cs => String.mk cs)

/-- JavaScript template interpolation of a possibly-undefined string value. -/
def jsInterp : Option String → String
  | none => "undefined"
  | some s => s

/-- JavaScript truthiness of a possibly-undefined string: undefined and the
empty string are falsy. -/
def jsTruthy : Option String → Bool
  | none => false
  | some s => !s.toList.isEmpty

/-- JavaScript falsiness of a possibly-undefined string. -/
def jsFalsy : Option String → Bool
  | none => true
  | some s => s.toList.isEmpty

/-- One entry of the contents array of a resource read response. -/
structure ResponseContent where
  uri : String
  name : String
  mimeType : Option String
  text : String

/-- A resource read response: its contents array. -/
structure ReadResult where
  contents : List ResponseContent

/-- One entry of the contents array of a tool response. -/
structure ToolContent where
  type : String
  text : String

/-- A tool response: contents plus the error flag (absent means false). -/
structure ToolResult where
  contents : List ToolContent
  isError : Bool

/-- A Kusto response, keeping each primary result table by its toString
rendering (the only use the code makes of a table). -/
structure KustoResponse where
  primaryResults : List String

/-- The opaque remote execution client.  execute receives the database
argument as the JavaScript value handed over by the caller (possibly
undefined) and the query text; a rejected promise is the error side,
carrying the error's textual description. -/
structure RemoteClient where
  exec : Option String → String → Except String KustoResponse

/-- An exception escaping a handler: a thrown Error with its message, an
await of a rejected promise, or a TypeError from indexing an empty
primaryResults array. -/
inductive JsError where
  | thrown (msg : String)
  | rejected (msg : String)
  | typeError

/-- One handler invocation: the calls made to the remote client's execute,
in order, and the outcome (a thrown or rejected error, or the returned
value, where none models a handler that returned undefined). -/
structure HandlerRun where
  calls : List (Option String × String)
  outcome : Except JsError (Option ReadResult)

/-- One tool handler invocation with its execute call trace. -/
structure ToolRun where
  calls : List (Option String × String)
  outcome : Except JsError ToolResult

/-- The Invalid URI payload returned by the low-level read handler when a
required path segment is falsy. -/
def invalidUriPayload (uri : String) : ReadResult :=
  ⟨[⟨uri, "Error", some "text/plain", "Invalid URI"⟩]⟩

/-- The second ReadResource handler of the low-level variant
(registerResourceTemplates): tries the tables regex, then the table-schema
regex, then the functions regex, in that order; extracts the db as piece 3
and the table as piece 4 of the slash-split URI; throws when the client is
not set; returns undefined when nothing matches. -/
def schemaTemplatesHandler (client : Option RemoteClient) (uri : String) :
    HandlerRun :=
  if testShowTables uri then
    match client with
    | none => ⟨[], .error (.thrown "Database client is not initialized")⟩
    | some c =>
      if jsFalsy (jsSplit uri)[3]? then ⟨[], .ok (some (invalidUriPayload uri))⟩
      else
        match c.exec (jsSplit uri)[3]? ".show tables" with
        | .error e => ⟨[((jsSplit uri)[3]?, ".show tables")], .error (.rejected e)⟩
        | .ok resp =>
          match resp.primaryResults.head? with
          | none => ⟨[((jsSplit uri)[3]?, ".show tables")], .error .typeError⟩
          | some t =>
            ⟨[((jsSplit uri)[3]?, ".show tables")],
              .ok (some ⟨[⟨uri, "Schema of the db " ++ ((jsSplit uri)[3]?).getD "",
                some "text/plain", t⟩]⟩)⟩
  else if testTableSchema uri then
    match client with
    | none => ⟨[], .error (.thrown "Database client is not initialized")⟩
    | some c =>
      if jsFalsy (jsSplit uri)[3]? || jsFalsy (jsSplit uri)[4]? then
        ⟨[], .ok (some (invalidUriPayload uri))⟩
      else
        match c.exec (jsSplit uri)[3]? (((jsSplit uri)[4]?).getD "" ++ " | getschema") with
        | .error e =>
          ⟨[((jsSplit uri)[3]?, ((jsSplit uri)[4]?).getD "" ++ " | getschema")],
            .error (.rejected e)⟩
        | .ok resp =>
          match resp.primaryResults.head? with
          | none =>
            ⟨[((jsSplit uri)[3]?, ((jsSplit uri)[4]?).getD "" ++ " | getschema")],
              .error .typeError⟩
          | some t =>
            ⟨[((jsSplit uri)[3]?, ((jsSplit uri)[4]?).getD "" ++ " | getschema")],
              .ok (some ⟨[⟨uri, "Schema of the table " ++ ((jsSplit uri)[4]?).getD "",
                some "text/plain", t⟩]⟩)⟩
  else if testFunctions uri then
    match client with
    | none => ⟨[], .error (.thrown "Database client is not initialized")⟩
    | some c =>
      match c.exec (jsSplit uri)[3]? ".show functions" with
      | .error e => ⟨[((jsSplit uri)[3]?, ".show functions")], .error (.rejected e)⟩
      | .ok resp =>
        match resp.primaryResults.head? with
        | none => ⟨[((jsSplit uri)[3]?, ".show functions")], .error .typeError⟩
        | some t =>
          if jsFalsy (jsSplit uri)[3]? then
            ⟨[((jsSplit uri)[3]?, ".show functions")], .ok (some (invalidUriPayload uri))⟩
          else
            ⟨[((jsSplit uri)[3]?, ".show functions")],
              .ok (some ⟨[⟨uri, "Functions of the db " ++ ((jsSplit uri)[3]?).getD "",
                some "text/plain", t⟩]⟩)⟩
  else ⟨[], .ok none⟩

/-- The resourceTemplates array declared by the ListResourceTemplates handler
of the low-level variant: uriTemplate and name pairs. -/
def declaredResourceTemplates : List (String × String) :=
  [("schema://adx/{db}", "Schema of the db"),
   ("schema://adx/{db}/{table}", "Schema of the table"),
   ("schema://adx/{db}/functions", "Functions of the db")]

/-- The four environment variables read by the server, each possibly unset. -/
structure Env where
  clusterName : Option String
  clientId : Option String
  clientSecret : Option String
  tenantId : Option String

/-- The config resource handler of variant A (registerConfigResource of the
first file): interpolates all four values raw, with no redaction. -/
def configContentsRaw (env : Env) : ReadResult :=
  ⟨[⟨"config://azure-data-explorer-creds/cluster-name", "Cluster Name", none,
      jsInterp env.clusterName⟩,
    ⟨"config://azure-data-explorer-creds/client-id", "Client ID", none,
      jsInterp env.clientId⟩,
    ⟨"config://azure-data-explorer-creds/client-secret", "Client Secret", none,
      jsInterp env.clientSecret⟩,
    ⟨"config://azure-data-explorer-creds/tenant-id", "Tenant ID", none,
      jsInterp env.tenantId⟩]⟩

/-- The config contents of variant B and of the low-level variant: the
client secret renders as the fixed mask when truthy and as Not set
otherwise; the other three values are interpolated raw. -/
def configContentsRedacted (env : Env) : ReadResult :=
  ⟨[⟨"config://azure-data-explorer-creds/cluster-name", "Cluster Name", none,
      jsInterp env.clusterName⟩,
    ⟨"config://azure-data-explorer-creds/client-id", "Client ID", none,
      jsInterp env.clientId⟩,
    ⟨"config://azure-data-explorer-creds/client-secret", "Client Secret", none,
      if jsTruthy env.clientSecret then "******" else "Not set"⟩,
    ⟨"config://azure-data-explorer-creds/tenant-id", "Tenant ID", none,
      jsInterp env.tenantId⟩]⟩

/-- The text of the Client Secret entry of a config read result
(its third contents entry). -/
def secretFieldText (r : ReadResult) : Option String :=
  (r.contents[2]?).map (fun c => c.text)

/-- The first ReadResource handler of the low-level variant
(registerResources): answers with the redacted config contents when the uri
starts with the creds address, and returns undefined otherwise.  The prefix
check models uri.startsWith. -/
def configReadHandlerLow (env : Env) (uri : String) :
    Except JsError (Option ReadResult) :=
  match startsWithList "config://azure-data-explorer-creds".toList uri.toList with
  | some _ => .ok (some (configContentsRedacted env))
  | none => .ok none

/-- Variant B resource handler for the schema of a db
(template schema-colon-slash-slash-adx-slash-db): throws when the client is
unset; when data.table is falsy, runs show tables and returns the rendering
of the first primary result; otherwise returns undefined. -/
def dbSchemaHandlerB (client : Option RemoteClient) (uri db : String)
    (table : Option String) : HandlerRun :=
  match client with
  | none => ⟨[], .error (.thrown "Client is not initialized")⟩
  | some c =>
    if jsFalsy table then
      match c.exec (some db) ".show tables" with
      | .error e => ⟨[(some db, ".show tables")], .error (.rejected e)⟩
      | .ok resp =>
        match resp.primaryResults.head? with
        | none => ⟨[(some db, ".show tables")], .error .typeError⟩
        | some t =>
          ⟨[(some db, ".show tables")],
            .ok (some ⟨[⟨uri, "List down all tables in the db " ++ db,
              some "text/plain", t⟩]⟩)⟩
    else ⟨[], .ok none⟩

/-- Variant B resource handler for the schema of a table: throws when the
client is unset; when data.table is truthy, runs the getschema query. -/
def tableSchemaHandlerB (client : Option RemoteClient) (uri db : String)
    (table : Option String) : HandlerRun :=
  match client with
  | none => ⟨[], .error (.thrown "Client is not initialized")⟩
  | some c =>
    if jsFalsy table then ⟨[], .ok none⟩
    else
      match c.exec (some db) (table.getD "" ++ " | getschema") with
      | .error e =>
        ⟨[(some db, table.getD "" ++ " | getschema")], .error (.rejected e)⟩
      | .ok resp =>
        match resp.primaryResults.head? with
        | none => ⟨[(some db, table.getD "" ++ " | getschema")], .error .typeError⟩
        | some t =>
          ⟨[(some db, table.getD "" ++ " | getschema")],
            .ok (some ⟨[⟨uri, "Schema of the table " ++ table.getD "",
              some "text/plain", t⟩]⟩)⟩

/-- Variant B resource handler for the functions of a db (registered under
the functions scheme): throws when the client is unset; otherwise always
runs show functions. -/
def functionsHandlerB (client : Option RemoteClient) (uri db : String) :
    HandlerRun :=
  match client with
  | none => ⟨[], .error (.thrown "Client is not initialized")⟩
  | some c =>
    match c.exec (some db) ".show functions" with
    | .error e => ⟨[(some db, ".show functions")], .error (.rejected e)⟩
    | .ok resp =>
      match resp.primaryResults.head? with
      | none => ⟨[(some db, ".show functions")], .error .typeError⟩
      | some t =>
        ⟨[(some db, ".show functions")],
          .ok (some ⟨[⟨uri, "List down all functions in the db " ++ db,
            some "text/plain", t⟩]⟩)⟩

/-- The query tool of variant B (registerQueryTool of the second file):
throws when the client is unset; otherwise forwards the caller's db and
query to execute with no try-catch around the call, so a rejection
propagates out of the handler. -/
def queryToolHandlerB (client : Option RemoteClient) (db query : String) :
    ToolRun :=
  match client with
  | none => ⟨[], .error (.thrown "Client is not initialized")⟩
  | some c =>
    match c.exec (some db) query with
    | .error e => ⟨[(some db, query)], .error (.rejected e)⟩
    | .ok resp =>
      match resp.primaryResults.head? with
      | none => ⟨[(some db, query)], .error .typeError⟩
      | some t => ⟨[(some db, query)], .ok ⟨[⟨"text", t⟩], false⟩⟩

/-- The query tool of variant A (registerQueryTool of the first file): runs
the sql against the local store; the result is serialized by the opaque
stringify collaborator; any failure is caught and rendered as an
error-flagged payload holding the error's textual description. -/
def queryToolHandlerA {α : Type} (stringify : α → String)
    (allFn : String → Except String α) (sql : String) : ToolResult :=
  match allFn sql with
  | .ok rows => ⟨[⟨"text", stringify rows⟩], false⟩
  | .error e => ⟨[⟨"text", "Error: " ++ e⟩], true⟩

/-- The connection configuration held by the Remote Client Handle after a
successful connect: the cluster URL built from the cluster name, and the
application-key credentials. -/
structure KustoConfig where
  clusterUrl : String
  clientId : String
  clientSecret : String
  tenantId : String

/-- The zod validation of connect: all four variables must be present
strings of length at least one. -/
def validateEnv (env : Env) : Bool :=
  jsTruthy env.clusterName && jsTruthy env.clientId &&
    jsTruthy env.clientSecret && jsTruthy env.tenantId

/-- Result of one connect call: the resulting client handle and whether the
descriptive validation error was logged.  connect never terminates the
process; it is a total function. -/
structure ConnectRun where
  client : Option KustoConfig
  errorLogged : Bool

/-- The connect method: on validation success, builds the connection from
the four values; on failure, logs and leaves the handle as it was. -/
def connect (env : Env) (prior : Option KustoConfig) : ConnectRun :=
  if validateEnv env then
    ⟨some ⟨"https://" ++ env.clusterName.getD "" ++ ".kusto.windows.net",
      env.clientId.getD "", env.clientSecret.getD "", env.tenantId.getD ""⟩,
      false⟩
  else ⟨prior, true⟩

/-- The disconnect method: when a client is held, close it (one close call)
and null the handle; when the handle is already null, do nothing.  It never
throws; the pair is the new handle and the number of close calls made. -/
def disconnect : Option KustoConfig → Option KustoConfig × Nat
  | some _ => (none, 1)
  | none => (none, 0)

/-- The steps of createServer, in order: initialize registers every
endpoint, then the transport starts serving, then connect is attempted.
The list does not depend on the environment: registration and serving
happen whether or not validation succeeds. -/
inductive StartupStep where
  | registerEndpoints
  | startServing
  | connectAttempt

/-- The createServer sequence paired with the connect outcome from a null
prior handle (the constructor initializes the handle to null). -/
def createServerRun (env : Env) : List StartupStep × ConnectRun :=
  ([StartupStep.registerEndpoints, StartupStep.startServing,
    StartupStep.connectAttempt], connect env none)

/-- The two handlers the low-level initialize registers for the
ReadResource request type, in call order: registerResources installs the
config handler, then registerResourceTemplates installs the schema-template
handler. -/
inductive ReadHandlerTag where
  | config
  | schemaTemplates

/-- Registration order of ReadResource handlers in the low-level
initialize. -/
def lowLevelInitRegistrations : List ReadHandlerTag :=
  [ReadHandlerTag.config, ReadHandlerTag.schemaTemplates]

/-- The handler the server actually dispatches to: setRequestHandler keeps
one handler per request method in a map, so a later registration for the
same method replaces the earlier one and the last registration wins. -/
def effectiveReadHandler (regs : List ReadHandlerTag) : Option ReadHandlerTag :=
  regs.getLast?

/-- Run a ReadResource request against the handler with the given tag. -/
def runReadHandler (tag : ReadHandlerTag) (client : Option RemoteClient)
    (env : Env) (uri : String) : HandlerRun :=
  match tag with
  | .config => ⟨[], configReadHandlerLow env uri⟩
  | .schemaTemplates => schemaTemplatesHandler client uri

/-- A remote client that answers every execute call with one result table
rendered as the given text. -/
def constClient (t : String) : RemoteClient :=
  ⟨fun _ _ => .ok ⟨[t]⟩⟩

/-- A remote client whose execute call always rejects with the given
description. -/
def failClient (e : String) : RemoteClient :=
  ⟨fun _ _ => .error e⟩

theorem startsWithList_self_append (ps cs : List Char) :
    startsWithList ps (ps ++ cs) = some cs := by
  induction ps with
  | nil => rfl
  | cons p ps ih => simp [startsWithList, ih]

theorem startsWithList_eq_some {ps cs r : List Char}
    (h : startsWithList ps cs = some r) : cs = ps ++ r := by
  induction ps generalizing cs with
  | nil => simpa [startsWithList] using h
  | cons p ps ih =>
    cases cs with
    | nil => simp [startsWithList] at h
    | cons c cs =>
      by_cases hpc : p = c
      · subst hpc
        simp only [startsWithList, if_pos rfl] at h
        simpa using ih h
      · simp [startsWithList, hpc] at h

theorem anySuffix_of_self {p : List Char → Bool} {cs : List Char}
    (h : p cs = true) : anySuffix p cs = true := by
  cases cs <;> simp [anySuffix, h]

theorem anySuffix_exists {p : List Char → Bool} {cs : List Char}
    (h : anySuffix p cs = true) :
    ∃ pre suf, cs = pre ++ suf ∧ p suf = true := by
  induction cs with
  | nil => exact ⟨[], [], rfl, h⟩
  | cons c cs ih =>
    simp only [anySuffix, Bool.or_eq_true] at h
    rcases h with h1 | h2
    · exact ⟨[], c :: cs, rfl, h1⟩
    · obtain ⟨pre, suf, hcat, hp⟩ := ih h2
      exact ⟨c :: pre, suf, by simp [hcat], hp⟩

theorem takeWordChars_all {cs : List Char} (h : cs.all isWordChar = true) :
    takeWordChars cs = (cs, []) := by
  induction cs with
  | nil => rfl
  | cons c cs ih =>
    simp only [List.all_cons, Bool.and_eq_true] at h
    simp [takeWordChars, h.1, ih h.2]

theorem takeWordChars_append_cons {xs : List Char} {y : Char} {ys : List Char}
    (hxs : xs.all isWordChar = true) (hy : isWordChar y = false) :
    takeWordChars (xs ++ y :: ys) = (xs, y :: ys) := by
  induction xs with
  | nil => simp [takeWordChars, hy]
  | cons x xs ih =>
    simp only [List.all_cons, Bool.and_eq_true] at hxs
    simp [takeWordChars, hxs.1, ih hxs.2]

theorem isEmpty_false_of_ne_nil {cs : List Char} (h : cs ≠ []) :
    cs.isEmpty = false := by
  cases cs with
  | nil => exact absurd rfl h
  | cons c cs => rfl

theorem wordChar_ne_slash {c : Char} (h : isWordChar c = true) : c ≠ '/' := by
  intro he
  subst he
  simp [isWordChar] at h

theorem wordChar_ne_colon {c : Char} (h : isWordChar c = true) : c ≠ ':' := by
  intro he
  subst he
  simp [isWordChar] at h

theorem count_colon_eq_zero {cs : List Char} (h : cs.all isWordChar = true) :
    cs.count ':' = 0 := by
  refine List.count_eq_zero.mpr (fun hm => ?_)
  exact wordChar_ne_colon (List.all_eq_true.mp h _ hm) rfl

theorem splitOnSlashAux_words (acc : List Char) {cs : List Char}
    (h : cs.all isWordChar = true) :
    splitOnSlashAux acc cs = [acc.reverse ++ cs] := by
  induction cs generalizing acc with
  | nil => simp [splitOnSlashAux]
  | cons c cs ih =>
    simp only [List.all_cons, Bool.and_eq_true] at h
    have hc : ¬c = '/' := wordChar_ne_slash h.1
    simp [splitOnSlashAux, hc, ih _ h.2]

theorem splitOnSlashAux_words_slash (acc : List Char) {xs : List Char}
    (ys : List Char) (h : xs.all isWordChar = true) :
    splitOnSlashAux acc (xs ++ '/' :: ys)
      = (acc.reverse ++ xs) :: splitOnSlashAux [] ys := by
  induction xs generalizing acc with
  | nil => simp [splitOnSlashAux]
  | cons x xs ih =>
    simp only [List.all_cons, Bool.and_eq_true] at h
    have hx : ¬x = '/' := wordChar_ne_slash h.1
    simp [splitOnSlashAux, hx, ih _ h.2]

theorem takeWhile_append_all {p : Char → Bool} {xs : List Char}
    (ys : List Char) (h : xs.all p = true) :
    (xs ++ ys).takeWhile p = xs ++ ys.takeWhile p := by
  induction xs with
  | nil => rfl
  | cons x xs ih =>
    simp only [List.all_cons, Bool.and_eq_true] at h
    simp [List.takeWhile_cons, h.1, ih h.2]

/-- The characters of the word part of the scheme, before the colon. -/
def segWord : List Char := ['s', 'c', 'h', 'e', 'm', 'a']

/-- Up to the first colon, any string of the form head-then-tail where the
tail holds no colon reads exactly the word schema. -/
theorem takeWhile_notColon_schemaHead (w : List Char) :
    (schemaHead ++ w).takeWhile (fun c => !(c == ':')) = segWord := by
  have h1 : schemaHead ++ w
      = segWord ++ ':' :: ('/' :: '/' :: 'a' :: 'd' :: 'x' :: '/' :: w) := rfl
  rw [h1, takeWhile_append_all _ (by decide)]
  simp [List.takeWhile_cons, segWord]

theorem all_notColon_of_count {cs : List Char} (h : cs.count ':' = 0) :
    cs.all (fun c => !(c == ':')) = true := by
  have hnm : ':' ∉ cs := List.count_eq_zero.mp h
  refine List.all_eq_true.mpr (fun x hx => ?_)
  have hxne : x ≠ ':' := fun he => hnm (he ▸ hx)
  simpa using hxne

/-- Core disambiguation fact: an address made of the fixed head, a word-char
db segment, a slash and a word-char tail matches the tables regex at no
position, because a match would need the single colon of the address to sit
six characters into the match, forcing the match to start at position zero,
where the remainder holds a slash. -/
theorem tablesTest_false {ds ts : List Char}
    (hds : ds.all isWordChar = true) (hts : ts.all isWordChar = true) :
    anySuffix tablesAt (schemaHead ++ ds ++ '/' :: ts) = false := by
  rw [Bool.eq_false_iff]
  intro hne
  obtain ⟨pre, suf, hcat, hp⟩ := anySuffix_exists hne
  rcases hm : startsWithList schemaHead suf with _ | w
  · simp only [tablesAt, hm] at hp
    exact Bool.false_ne_true hp
  · simp only [tablesAt, hm, Bool.and_eq_true] at hp
    have hsuf : suf = schemaHead ++ w := startsWithList_eq_some hm
    have hw : w.all isWordChar = true := hp.2
    have hcount : (schemaHead ++ ds ++ '/' :: ts).count ':' = 1 := by
      rw [List.append_assoc, List.count_append, List.count_append,
        List.count_cons, count_colon_eq_zero hds, count_colon_eq_zero hts]
      decide
    have hw0 : w.count ':' = 0 := count_colon_eq_zero hw
    have hpre0 : pre.count ':' = 0 := by
      have h2 : (pre ++ (schemaHead ++ w)).count ':' = 1 := by
        rw [← hsuf, ← hcat]
        exact hcount
      rw [List.count_append, List.count_append, hw0] at h2
      have hsh : schemaHead.count ':' = 1 := by decide
      omega
    have heq : pre ++ segWord = segWord := by
      have ht2 : (schemaHead ++ ds ++ '/' :: ts).takeWhile (fun c => !(c == ':'))
          = pre ++ segWord := by
        rw [hcat, hsuf, takeWhile_append_all _ (all_notColon_of_count hpre0),
          takeWhile_notColon_schemaHead]
      have ht1 : (schemaHead ++ ds ++ '/' :: ts).takeWhile (fun c => !(c == ':'))
          = segWord := by
        rw [List.append_assoc]
        exact takeWhile_notColon_schemaHead _
      rw [← ht2, ht1]
    have hpre : pre = [] := by
      have hl := congrArg List.length heq
      rw [List.length_append] at hl
      exact List.eq_nil_of_length_eq_zero (by omega)
    subst hpre
    rw [List.nil_append] at hcat
    rw [hsuf, List.append_assoc] at hcat
    have hw_eq : ds ++ '/' :: ts = w := by
      have hdrop := congrArg (List.drop schemaHead.length) hcat
      rwa [List.drop_left, List.drop_left] at hdrop
    have hmem : '/' ∈ w := by
      rw [← hw_eq]
      exact List.mem_append.mpr (Or.inr (List.mem_cons_self _ _))
    exact wordChar_ne_slash (List.all_eq_true.mp hw _ hmem) rfl

theorem all_noSlash_of_words {cs : List Char} (h : cs.all isWordChar = true) :
    cs.all (fun c => !(c == '/')) = true := by
  refine List.all_eq_true.mpr (fun x hx => ?_)
  simpa using wordChar_ne_slash (List.all_eq_true.mp h _ hx)

theorem splitOnSlashAux_slash (acc ys : List Char) :
    splitOnSlashAux acc ('/' :: ys) = acc.reverse :: splitOnSlashAux [] ys := by
  simp [splitOnSlashAux]

theorem splitOnSlashAux_noSlash (acc : List Char) {cs : List Char}
    (h : cs.all (fun c => !(c == '/')) = true) :
    splitOnSlashAux acc cs = [acc.reverse ++ cs] := by
  induction cs generalizing acc with
  | nil => simp [splitOnSlashAux]
  | cons c cs ih =>
    simp only [List.all_cons, Bool.and_eq_true] at h
    have hc : ¬c = '/' := by simpa using h.1
    simp [splitOnSlashAux, hc, ih _ h.2]

theorem splitOnSlashAux_noSlash_slash (acc : List Char) {xs : List Char}
    (ys : List Char) (h : xs.all (fun c => !(c == '/')) = true) :
    splitOnSlashAux acc (xs ++ '/' :: ys)
      = (acc.reverse ++ xs) :: splitOnSlashAux [] ys := by
  induction xs generalizing acc with
  | nil => simp [splitOnSlashAux]
  | cons x xs ih =>
    simp only [List.all_cons, Bool.and_eq_true] at h
    have hx : ¬x = '/' := by simpa using h.1
    simp [splitOnSlashAux, hx, ih _ h.2]

theorem dbUri_toList (db : String) :
    ("schema://adx/" ++ db).toList = schemaHead ++ db.toList := rfl

theorem jsSplit_dbUri {db : String} (h : db.toList.all isWordChar = true) :
    jsSplit ("schema://adx/" ++ db) = ["schema:", "", "adx", db] := by
  have h0 : ("schema://adx/" ++ db).toList
      = ['s', 'c', 'h', 'e', 'm', 'a', ':']
        ++ '/' :: ('/' :: (['a', 'd', 'x'] ++ '/' :: db.toList)) := rfl
  simp only [jsSplit]
  rw [h0, splitOnSlashAux_noSlash_slash _ _ (by decide), splitOnSlashAux_slash,
    splitOnSlashAux_noSlash_slash _ _ (by decide),
    splitOnSlashAux_noSlash _ (all_noSlash_of_words h)]
  rfl

theorem testShowTables_dbUri {db : String} (hne : db.toList ≠ [])
    (h : db.toList.all isWordChar = true) :
    testShowTables ("schema://adx/" ++ db) = true := by
  simp only [testShowTables, dbUri_toList]
  apply anySuffix_of_self
  simp only [tablesAt, startsWithList_self_append]
  simpa using ⟨hne, List.all_eq_true.mp h⟩

theorem tableUri_toList (db table : String) :
    ("schema://adx/" ++ db ++ "/" ++ table).toList
      = schemaHead ++ db.toList ++ '/' :: table.toList := by
  have h1 : ("schema://adx/" ++ db ++ "/" ++ table).toList
      = schemaHead ++ db.toList ++ ['/'] ++ table.toList := rfl
  rw [h1]
  simp [List.append_assoc]

theorem tableUri_toList_assoc (db table : String) :
    ("schema://adx/" ++ db ++ "/" ++ table).toList
      = schemaHead ++ (db.toList ++ '/' :: table.toList) := by
  rw [tableUri_toList, List.append_assoc]

theorem jsSplit_tableUri {db table : String}
    (hdb : db.toList.all isWordChar = true)
    (htb : table.toList.all isWordChar = true) :
    jsSplit ("schema://adx/" ++ db ++ "/" ++ table)
      = ["schema:", "", "adx", db, table] := by
  have h0 : ("schema://adx/" ++ db ++ "/" ++ table).toList
      = ['s', 'c', 'h', 'e', 'm', 'a', ':']
        ++ '/' :: ('/' :: (['a', 'd', 'x']
          ++ '/' :: (db.toList ++ '/' :: table.toList))) := by
    rw [tableUri_toList_assoc]
    simp [schemaHead, List.append_assoc]
  simp only [jsSplit]
  rw [h0, splitOnSlashAux_noSlash_slash _ _ (by decide), splitOnSlashAux_slash,
    splitOnSlashAux_noSlash_slash _ _ (by decide),
    splitOnSlashAux_noSlash_slash _ _ (all_noSlash_of_words hdb),
    splitOnSlashAux_noSlash _ (all_noSlash_of_words htb)]
  rfl

theorem testShowTables_tableUri {db table : String}
    (hdb : db.toList.all isWordChar = true)
    (htb : table.toList.all isWordChar = true) :
    testShowTables ("schema://adx/" ++ db ++ "/" ++ table) = false := by
  simp only [testShowTables, tableUri_toList]
  exact tablesTest_false hdb htb

theorem testTableSchema_tableUri {db table : String}
    (hdbne : db.toList ≠ []) (htbne : table.toList ≠ [])
    (hdb : db.toList.all isWordChar = true)
    (htb : table.toList.all isWordChar = true) :
    testTableSchema ("schema://adx/" ++ db ++ "/" ++ table) = true := by
  simp only [testTableSchema, tableUri_toList_assoc]
  apply anySuffix_of_self
  simp only [tableSchemaAt, startsWithList_self_append,
    takeWordChars_append_cons hdb (by decide : isWordChar '/' = false),
    takeWordChars_all htb]
  simpa using ⟨hdbne, htbne⟩

/-- C6 (amended): a read of an address of the shape schema-adx-db whose
single path segment is a nonempty run of word characters issues exactly the
query .show tables against that database, and when the remote call succeeds
with a nonempty primaryResults array it returns the text rendering of the
first result table. -/
theorem dbUriIssuesShowTables (db : String) (c : RemoteClient)
    (resp : KustoResponse) (t : String)
    (hne : db.toList ≠ []) (hw : db.toList.all isWordChar = true)
    (hexec : c.exec (some db) ".show tables" = .ok resp)
    (ht : resp.primaryResults.head? = some t) :
    schemaTemplatesHandler (some c) ("schema://adx/" ++ db)
      = ⟨[(some db, ".show tables")],
         .ok (some ⟨[⟨"schema://adx/" ++ db, "Schema of the db " ++ db,
           some "text/plain", t⟩]⟩)⟩ := by
  have hsplit := jsSplit_dbUri hw
  have htest := testShowTables_dbUri hne hw
  simp [schemaTemplatesHandler, htest, hsplit, hexec, ht, jsFalsy,
    isEmpty_false_of_ne_nil hne]
  exact hne

/-- C7 (amended): a read of an address of the shape schema-adx-db-table whose
two path segments are nonempty runs of word characters, the last differing
from the literal functions, issues exactly the query table-pipe-getschema
against the database, and on success returns the text rendering of the first
result table. -/
theorem tableUriIssuesGetschema (db table : String) (c : RemoteClient)
    (resp : KustoResponse) (t : String)
    (hdbne : db.toList ≠ []) (htbne : table.toList ≠ [])
    (hdb : db.toList.all isWordChar = true)
    (htb : table.toList.all isWordChar = true)
    (hnf : table ≠ "functions")
    (hexec : c.exec (some db) (table ++ " | getschema") = .ok resp)
    (ht : resp.primaryResults.head? = some t) :
    schemaTemplatesHandler (some c) ("schema://adx/" ++ db ++ "/" ++ table)
      = ⟨[(some db, table ++ " | getschema")],
         .ok (some ⟨[⟨"schema://adx/" ++ db ++ "/" ++ table,
           "Schema of the table " ++ table, some "text/plain", t⟩]⟩)⟩ := by
  have hsplit := jsSplit_tableUri hdb htb
  have htest1 := testShowTables_tableUri hdb htb
  have htest2 := testTableSchema_tableUri hdbne htbne hdb htb
  simp [schemaTemplatesHandler, htest1, htest2, hsplit, hexec, ht, jsFalsy,
    isEmpty_false_of_ne_nil hdbne, isEmpty_false_of_ne_nil htbne]
  exact ⟨hdbne, htbne⟩

/-- C6 witness: the concrete address schema-adx-mydb issues show tables
against mydb and returns the rendering W6 of the single result table. -/
theorem dbUriIssuesShowTables_witness :
    schemaTemplatesHandler (some (constClient "W6")) "schema://adx/mydb"
      = ⟨[(some "mydb", ".show tables")],
         .ok (some ⟨[⟨"schema://adx/mydb", "Schema of the db mydb",
           some "text/plain", "W6"⟩]⟩)⟩ := by
  exact dbUriIssuesShowTables "mydb" (constClient "W6") ⟨["W6"]⟩ "W6"
    (by decide) (by decide) rfl rfl

/-- C6 counterexample: the address schema-adx-my-db has exactly one path
segment after the scheme, yet the read handler matches none of the three
regexes (the segment holds a hyphen, outside the word-char class), makes no
execute call and returns undefined, instead of issuing show tables. -/
theorem dbUriNonWordSegment_cex :
    schemaTemplatesHandler (some (constClient "T6")) "schema://adx/my-db"
      = ⟨[], .ok none⟩ := rfl

/-- C7 witness: the concrete address schema-adx-mydb-mytable issues the
getschema query for mytable against mydb. -/
theorem tableUriIssuesGetschema_witness :
    schemaTemplatesHandler (some (constClient "W7")) "schema://adx/mydb/mytable"
      = ⟨[(some "mydb", "mytable | getschema")],
         .ok (some ⟨[⟨"schema://adx/mydb/mytable", "Schema of the table mytable",
           some "text/plain", "W7"⟩]⟩)⟩ := by
  exact tableUriIssuesGetschema "mydb" "mytable" (constClient "W7") ⟨["W7"]⟩ "W7"
    (by decide) (by decide) (by decide) (by decide) (by decide) rfl rfl

/-- C7 counterexample: the address schema-adx-mydb-my-table has a db and a
table segment and its last segment differs from the literal functions, yet
the read handler matches none of the three regexes (the table segment holds
a hyphen), makes no execute call and returns undefined, instead of issuing
the getschema query. -/
theorem tableUriNonWordSegment_cex :
    schemaTemplatesHandler (some (constClient "T7")) "schema://adx/mydb/my-table"
      = ⟨[], .ok none⟩ := rfl

/-- C1: the low-level variant declares the functions endpoint under the
template schema-adx-db-functions and its functions regex does match the
address schema-adx-mydb-functions, but the read handler tests the
table-schema regex first and the word-char class accepts the literal
functions, so the read is dispatched to the table-schema behavior and
issues functions-pipe-getschema, not show functions. -/
theorem functionsUriRoutedToTableBranch :
    ("schema://adx/{db}/functions", "Functions of the db") ∈ declaredResourceTemplates
    ∧ testFunctions "schema://adx/mydb/functions" = true
    ∧ schemaTemplatesHandler (some (constClient "FN")) "schema://adx/mydb/functions"
      = ⟨[(some "mydb", "functions | getschema")],
         .ok (some ⟨[⟨"schema://adx/mydb/functions", "Schema of the table functions",
           some "text/plain", "FN"⟩]⟩)⟩ :=
  ⟨by decide, by decide, rfl⟩

/-- C2 counterexample: the config handler of variant A interpolates the
secret raw, so a read with a non-empty secret returns the raw value and not
the fixed mask. -/
theorem rawConfigSecret_cex :
    secretFieldText (configContentsRaw
        ⟨some "mycluster", some "myid", some "s3cret", some "mytenant"⟩)
      = some "s3cret" ∧ "s3cret" ≠ "******" :=
  ⟨rfl, by decide⟩

/-- C2 (amended): in the redacting config handler (variant B and the
low-level variant), a set non-empty secret renders as the fixed mask and,
unless the raw secret is itself the mask string, the rendered text differs
from the raw value; an unset secret renders as Not set.  Variant A's config
handler returns the raw interpolated value instead. -/
theorem redactedConfigMasksSecret (env : Env) :
    (∀ s, env.clientSecret = some s → s ≠ "" →
      secretFieldText (configContentsRedacted env) = some "******"
      ∧ (s ≠ "******" → secretFieldText (configContentsRedacted env) ≠ some s))
    ∧ (env.clientSecret = none →
      secretFieldText (configContentsRedacted env) = some "Not set") := by
  constructor
  · intro s hs hne
    have hlist : s.toList ≠ [] := by
      intro hl
      exact hne (congrArg String.mk hl)
    have htr : jsTruthy env.clientSecret = true := by
      rw [hs]
      simp [jsTruthy, isEmpty_false_of_ne_nil hlist]
      exact hlist
    have hval : secretFieldText (configContentsRedacted env) = some "******" := by
      simp [secretFieldText, configContentsRedacted, htr]
    refine ⟨hval, fun hmask => ?_⟩
    rw [hval]
    intro hcontra
    rw [Option.some.injEq] at hcontra
    exact hmask hcontra.symm
  · intro hnone
    simp [secretFieldText, configContentsRedacted, jsTruthy, hnone]

/-- C2 witness: with the secret set to abc the rendered text is the mask;
with the secret unset it is Not set. -/
theorem redactedConfigMasksSecret_witness :
    secretFieldText (configContentsRedacted
        ⟨some "c", some "i", some "abc", some "t"⟩) = some "******"
    ∧ secretFieldText (configContentsRedacted
        ⟨some "c", some "i", none, some "t"⟩) = some "Not set" :=
  ⟨((redactedConfigMasksSecret ⟨some "c", some "i", some "abc", some "t"⟩).1
      "abc" rfl (by decide)).1,
   (redactedConfigMasksSecret ⟨some "c", some "i", none, some "t"⟩).2 rfl⟩

/-- C3 counterexample: with the handle unset the query tool handler throws
the client-not-initialized Error; the outcome is a thrown error leaving the
handler, not a returned not-initialized content payload. -/
theorem uninitializedReturnsPayload_cex :
    (queryToolHandlerB none "mydb" "Table1 | take 5").outcome
      = .error (.thrown "Client is not initialized") := rfl

/-- C3 (amended): with the Remote Client Handle unset, every
remote-dependent handler throws an Error whose message states the client is
not initialized, making no execute call; the throw leaves the handler and
is surfaced per-request by the transport rather than being returned as a
content payload. -/
theorem uninitializedClientThrows :
    (∀ (uri db query : String) (table : Option String),
      dbSchemaHandlerB none uri db table
          = ⟨[], .error (.thrown "Client is not initialized")⟩
        ∧ tableSchemaHandlerB none uri db table
          = ⟨[], .error (.thrown "Client is not initialized")⟩
        ∧ functionsHandlerB none uri db
          = ⟨[], .error (.thrown "Client is not initialized")⟩
        ∧ queryToolHandlerB none db query
          = ⟨[], .error (.thrown "Client is not initialized")⟩)
    ∧ (∀ uri : String,
        (testShowTables uri || testTableSchema uri || testFunctions uri) = true →
        schemaTemplatesHandler none uri
          = ⟨[], .error (.thrown "Database client is not initialized")⟩) := by
  constructor
  · intro uri db query table
    exact ⟨rfl, rfl, rfl, rfl⟩
  · intro uri h
    simp only [Bool.or_eq_true] at h
    by_cases h1 : testShowTables uri = true
    · simp [schemaTemplatesHandler, h1]
    · have h1f : testShowTables uri = false := by simpa using h1
      by_cases h2 : testTableSchema uri = true
      · simp [schemaTemplatesHandler, h1f, h2]
      · have h2f : testTableSchema uri = false := by simpa using h2
        have h3 : testFunctions uri = true := by
          rcases h with (ha | hb) | hc
          · rw [h1f] at ha
            exact absurd ha (by decide)
          · rw [h2f] at hb
            exact absurd hb (by decide)
          · exact hc
        simp [schemaTemplatesHandler, h1f, h2f, h3]

/-- C3 witness: at the concrete address schema-adx-mydb and concrete tool
arguments, the unset handle makes each handler throw its
not-initialized Error. -/
theorem uninitializedClientThrows_witness :
    dbSchemaHandlerB none "schema://adx/mydb" "mydb" none
        = ⟨[], .error (.thrown "Client is not initialized")⟩
    ∧ schemaTemplatesHandler none "schema://adx/mydb"
        = ⟨[], .error (.thrown "Database client is not initialized")⟩ :=
  ⟨(uninitializedClientThrows.1 "schema://adx/mydb" "mydb" "q" none).1,
   uninitializedClientThrows.2 "schema://adx/mydb" (by decide)⟩

/-- C4 counterexample: in variant B a rejection of the remote execute call
is not caught: the query tool handler's outcome is the propagated
rejection, not a returned payload with the error flag set. -/
theorem remoteQueryToolPropagates_cex :
    (queryToolHandlerB (some (failClient "remote failure")) "mydb"
        "Table1 | take 5").outcome
      = .error (.rejected "remote failure") := rfl

/-- C4 (amended): the local-store query tool of variant A catches any
failure of the call and returns an error-flagged payload whose text is the
word Error, a colon and the error's description; the remote query tool of
variant B has no catch, so a rejection of execute propagates out of the
handler. -/
theorem queryToolErrorPaths :
    (∀ (α : Type) (stringify : α → String) (allFn : String → Except String α)
      (sql e : String),
      allFn sql = .error e →
        queryToolHandlerA stringify allFn sql
          = ⟨[⟨"text", "Error: " ++ e⟩], true⟩)
    ∧ (∀ (c : RemoteClient) (db q e : String),
      c.exec (some db) q = .error e →
        (queryToolHandlerB (some c) db q).outcome = .error (.rejected e)) := by
  constructor
  · intro α stringify allFn sql e h
    simp [queryToolHandlerA, h]
  · intro c db q e h
    simp [queryToolHandlerB, h]

/-- C4 witness: a failing local-store call yields the flagged Error payload
and a failing remote call yields a propagated rejection. -/
theorem queryToolErrorPaths_witness :
    queryToolHandlerA (fun s : String => s) (fun _ => .error "boom") "T | take 5"
        = ⟨[⟨"text", "Error: boom"⟩], true⟩
    ∧ (queryToolHandlerB (some (failClient "boom")) "mydb" "T | take 5").outcome
        = .error (.rejected "boom") :=
  ⟨queryToolErrorPaths.1 String (fun s => s) (fun _ => .error "boom")
      "T | take 5" "boom" rfl,
   queryToolErrorPaths.2 (failClient "boom") "mydb" "T | take 5" "boom" rfl⟩

/-- C5: the query tool of variant B makes exactly one execute call, passing
the caller's database and the caller's query text verbatim, and on a
successful call with a nonempty primaryResults array returns the text
rendering of the first result table in an unflagged payload. -/
theorem queryToolForwardsVerbatim (c : RemoteClient) (db query : String)
    (resp : KustoResponse) (t : String)
    (hexec : c.exec (some db) query = .ok resp)
    (ht : resp.primaryResults.head? = some t) :
    queryToolHandlerB (some c) db query
      = ⟨[(some db, query)], .ok ⟨[⟨"text", t⟩], false⟩⟩ := by
  simp [queryToolHandlerB, hexec, ht]

/-- C5 witness: the concrete invocation with db mydb and query
Table1-take-5 forwards exactly that pair and returns the rendering R. -/
theorem queryToolForwardsVerbatim_witness :
    queryToolHandlerB (some (constClient "R")) "mydb" "Table1 | take 5"
      = ⟨[(some "mydb", "Table1 | take 5")], .ok ⟨[⟨"text", "R"⟩], false⟩⟩ :=
  queryToolForwardsVerbatim (constClient "R") "mydb" "Table1 | take 5"
    ⟨["R"]⟩ "R" rfl rfl

/-- C8: when any of the four required variables is unset or empty, connect
fails validation, logs the descriptive error and leaves the handle null
without terminating (connect is total), while the createServer sequence
still performs endpoint registration and serving, independent of the
environment and before the connect attempt. -/
theorem connectFailureLeavesClientUnset (env : Env)
    (h : jsTruthy env.clusterName = false ∨ jsTruthy env.clientId = false
      ∨ jsTruthy env.clientSecret = false ∨ jsTruthy env.tenantId = false) :
    (createServerRun env).2.client = none
    ∧ (createServerRun env).2.errorLogged = true
    ∧ (createServerRun env).1
      = [StartupStep.registerEndpoints, StartupStep.startServing,
         StartupStep.connectAttempt] := by
  have hv : validateEnv env = false := by
    rcases h with h | h | h | h <;> simp [validateEnv, h]
  refine ⟨?_, ?_, rfl⟩ <;> simp [createServerRun, connect, hv]

/-- C8 witness: with the secret variable unset the startup run leaves the
handle null, logs the error and still performs all three steps. -/
theorem connectFailureLeavesClientUnset_witness :
    (createServerRun ⟨some "c", some "i", none, some "t"⟩).2.client = none
    ∧ (createServerRun ⟨some "c", some "i", none, some "t"⟩).2.errorLogged = true
    ∧ (createServerRun ⟨some "c", some "i", none, some "t"⟩).1
      = [StartupStep.registerEndpoints, StartupStep.startServing,
         StartupStep.connectAttempt] :=
  connectFailureLeavesClientUnset ⟨some "c", some "i", none, some "t"⟩
    (Or.inr (Or.inr (Or.inl rfl)))

/-- C9: disconnect is idempotent: after one call the handle is null; a
second call makes no close call and returns the null handle again; calling
it on an already-null handle is a no-op.  disconnect is a total function,
so neither call raises. -/
theorem disconnectIdempotent (s : Option KustoConfig) :
    (disconnect s).1 = none
    ∧ disconnect (disconnect s).1 = (none, 0)
    ∧ disconnect none = (none, 0) := by
  cases s <;> exact ⟨rfl, rfl, rfl⟩

/-- C10: the low-level initialize registers the config handler and then the
schema-template handler for the same ReadResource request type, so the
last registration wins; a read of the creds address then reaches the
schema-template handler, matches none of its three patterns and returns no
content payload, while the replaced config handler would have returned the
four configuration fields. -/
theorem configReadShadowedByTemplates (client : Option RemoteClient) (env : Env) :
    effectiveReadHandler lowLevelInitRegistrations
        = some ReadHandlerTag.schemaTemplates
    ∧ testShowTables "config://azure-data-explorer-creds" = false
    ∧ testTableSchema "config://azure-data-explorer-creds" = false
    ∧ testFunctions "config://azure-data-explorer-creds" = false
    ∧ runReadHandler ReadHandlerTag.schemaTemplates client env
        "config://azure-data-explorer-creds" = ⟨[], .ok none⟩
    ∧ (runReadHandler ReadHandlerTag.config client env
        "config://azure-data-explorer-creds").outcome
      = .ok (some (configContentsRedacted env))
    ∧ (configContentsRedacted env).contents.length = 4 :=
  ⟨rfl, by decide, by decide, by decide, rfl, rfl, rfl⟩

